import Mathlib

/-!
Verification of the http-mockery request pipeline (pkg/mockery/mockery.go and
pkg/mockery/util.go) against its natural-language specification.

Modelling conventions:
* Go strings are modelled as Lean `String` (rendered bodies are assembled as
  `List Char`, the honest model of sequential buffer writes, and converted to
  `String` at the end).  Go `len` is byte length; for the ASCII data handled
  here character count coincides with it.
* Library calls are parameters of the embedding: the regex engine
  (`regexp.MatchString`), the filesystem (`os.ReadFile`), the process
  environment (`os.LookupEnv`), JSON validity (`encoding/json`), and URL
  parsing (`url.Parse`).  The embedded code passes their inputs and consumes
  their outputs exactly as the source does.
* Errors built with `fmt.Errorf` are modelled as structured variants carrying
  the same format arguments.
-/

namespace Mockery

/-- Model of the `Variable` struct (mockery.go lines 52-57). -/
structure Variable where
  name : String
  envVar : String
  header : String
  value : String
deriving DecidableEq, Repr

/-- Model of the `Endpoint` struct (mockery.go lines 43-50).  The Go field
`Variables` is spelled `vars` here because `variables` is a reserved word in
Lean. -/
structure Endpoint where
  uri : String
  type : String
  method : String
  responseCode : Int
  template : String
  vars : List Variable
deriving DecidableEq, Repr

/-- Model of the `Logging` struct (mockery.go lines 59-62). -/
structure Logging where
  requestContents : Bool
  responseContents : Bool
deriving DecidableEq, Repr

/-- Model of the `Config` struct (mockery.go lines 35-41). -/
structure Config where
  listenIP : String
  listenPort : Int
  proxyPass : String
  endpoints : List Endpoint
  logging : Logging
deriving DecidableEq, Repr

/-- The `validHTTPMethods` allow-list (mockery.go line 23). -/
def validHTTPMethods : List String := ["GET", "POST", "PUT", "DELETE", "PATCH"]

/-- The `EndpointTypeNormal` constant (mockery.go line 26). -/
def EndpointTypeNormal : String := "normal"

/-- The `EndpointTypeRegex` constant (mockery.go line 27). -/
def EndpointTypeRegex : String := "regex"

/-- The `validEndpointTypes` allow-list (mockery.go line 33). -/
def validEndpointTypes : List String := [EndpointTypeNormal, EndpointTypeRegex]

/-- Model of Go `strings.ToUpper` (Unicode uppercasing, applied here only to
ASCII method strings), as a character-wise map. -/
def goToUpper (s : String) : String := String.mk (s.data.map Char.toUpper)

/-- Model of Go `strings.ToLower`, as a character-wise map. -/
def goToLower (s : String) : String := String.mk (s.data.map Char.toLower)

/-- Model of an incoming `*http.Request` as far as the dispatch pipeline
reads it.  `headerVars` models `buildHeaderVars(r).Get`: the request headers
plus the two synthetic basic-auth entries, with absent headers answered by
the empty string (Go `http.Header.Get` semantics).  For the request-less
validation call (`&http.Request{}`) every header is absent. -/
structure Request where
  method : String
  requestURI : String
  headerVars : String → String

/-- The empty `&http.Request{}` used by `ValidateConfig` (mockery.go line 107). -/
def emptyRequest : Request := { method := "", requestURI := "", headerVars := fun _ => "" }

/-- Model of the Go regex library: `regexp.MatchString(pattern, s)` returns a
match verdict or a compilation error. -/
def RegexEngine : Type := String → String → Except String Bool

/-- The call `match, _ := regexp.MatchString(endpoint.Uri, r.RequestURI)`
(mockery.go line 165): the error return is discarded, so a failed compilation
behaves as a non-match. -/
def matchStringDiscardErr (engine : RegexEngine) (pat s : String) : Bool :=
  match engine pat s with
  | .ok b => b
  | .error _ => false

/-- The `ErrEndpointNotFound` sentinel (mockery.go line 21). -/
inductive MatchError where
  | endpointNotFound
deriving DecidableEq, Repr

/-- Alias keeping the source's name for the sentinel. -/
def ErrEndpointNotFound : MatchError := MatchError.endpointNotFound

/-- The loop body of `MatchEndpoint` (mockery.go lines 162-174) over an
explicit endpoint list. -/
def matchEndpointList (engine : RegexEngine) (es : List Endpoint) (method uri : String) :
    Except MatchError Endpoint :=
  match es with
  | [] => .error .endpointNotFound
  | e :: rest =>
    if goToUpper e.method == method then
      if e.type == EndpointTypeRegex && matchStringDiscardErr engine e.uri uri then
        .ok e
      else if e.type == EndpointTypeNormal && e.uri == uri then
        .ok e
      else
        matchEndpointList engine rest method uri
    else
      matchEndpointList engine rest method uri

/-- Model of `MockHandler.MatchEndpoint` (mockery.go lines 161-177). -/
def matchEndpoint (engine : RegexEngine) (cfg : Config) (r : Request) :
    Except MatchError Endpoint :=
  matchEndpointList engine cfg.endpoints r.method r.requestURI

/-- The per-endpoint acceptance test performed by one iteration of the
`MatchEndpoint` loop: declared method upper-cased and compared to the request
method, then the type-directed URI test. -/
def endpointAccepts (engine : RegexEngine) (e : Endpoint) (method uri : String) : Bool :=
  goToUpper e.method == method &&
    ((e.type == EndpointTypeRegex && matchStringDiscardErr engine e.uri uri) ||
     (e.type == EndpointTypeNormal && e.uri == uri))

theorem matchEndpointList_cons (engine : RegexEngine) (e : Endpoint) (rest : List Endpoint)
    (method uri : String) :
    matchEndpointList engine (e :: rest) method uri =
      if endpointAccepts engine e method uri then .ok e
      else matchEndpointList engine rest method uri := by
  simp only [matchEndpointList, endpointAccepts]
  by_cases hm : (goToUpper e.method == method) = true
  · by_cases hr : (e.type == EndpointTypeRegex && matchStringDiscardErr engine e.uri uri) = true
    · simp [hm, hr]
    · by_cases hn : (e.type == EndpointTypeNormal && e.uri == uri) = true <;>
        simp [hm, hr, hn]
  · simp [hm]

theorem matchStringDiscardErr_eq_true (engine : RegexEngine) (pat s : String) :
    matchStringDiscardErr engine pat s = true ↔ engine pat s = .ok true := by
  unfold matchStringDiscardErr
  cases h : engine pat s with
  | ok b => cases b <;> simp
  | error msg => simp

theorem matchEndpointList_spec (engine : RegexEngine) (es : List Endpoint) (m u : String) :
    (∀ e, matchEndpointList engine es m u = .ok e ↔
      ∃ pre post, es = pre ++ e :: post ∧ endpointAccepts engine e m u = true ∧
        ∀ e' ∈ pre, endpointAccepts engine e' m u = false)
    ∧ (matchEndpointList engine es m u = .error ErrEndpointNotFound ↔
        ∀ e ∈ es, endpointAccepts engine e m u = false) := by
  induction es with
  | nil =>
    constructor
    · intro e
      constructor
      · intro h; simp [matchEndpointList] at h
      · rintro ⟨pre, post, h, -, -⟩; simp at h
    · simp [matchEndpointList, ErrEndpointNotFound]
  | cons e0 rest ih =>
    rw [matchEndpointList_cons]
    by_cases h0 : endpointAccepts engine e0 m u = true
    · constructor
      · intro e
        constructor
        · intro h
          simp [h0] at h
          exact ⟨[], rest, by simp [h], h ▸ h0, by simp⟩
        · rintro ⟨pre, post, hdec, hacc, hpre⟩
          match pre, hdec with
          | [], hdec =>
            simp at hdec
            obtain ⟨rfl, rfl⟩ := hdec
            simp [h0]
          | p :: pre', hdec =>
            simp at hdec
            have hp := hpre p (by simp)
            rw [← hdec.1] at hp
            simp [h0] at hp
      · constructor
        · intro h; simp [h0] at h
        · intro h; exact absurd (h e0 (by simp)) (by simp [h0])
    · rw [if_neg h0]
      constructor
      · intro e
        rw [ih.1 e]
        constructor
        · rintro ⟨pre, post, hdec, hacc, hpre⟩
          refine ⟨e0 :: pre, post, by simp [hdec], hacc, ?_⟩
          intro e' he'
          rcases List.mem_cons.mp he' with rfl | hmem
          · simpa using h0
          · exact hpre e' hmem
        · rintro ⟨pre, post, hdec, hacc, hpre⟩
          match pre, hdec with
          | [], hdec =>
            simp at hdec
            exact absurd (hdec.1 ▸ hacc) h0
          | p :: pre', hdec =>
            simp at hdec
            exact ⟨pre', post, hdec.2, hacc, fun e' he' => hpre e' (by simp [he'])⟩
      · rw [ih.2]
        constructor
        · intro h e he
          rcases List.mem_cons.mp he with rfl | hmem
          · simpa using h0
          · exact h e hmem
        · intro h e he; exact h e (by simp [he])

/-- C1: for every request method, request URI, and ordered endpoint list,
`MatchEndpoint` returns the first endpoint in declaration order (the
decomposition `pre ++ e :: post` with every endpoint of `pre` rejected)
whose method matches the request method — the declared method is upper-cased
before the comparison, so it is compared case-insensitively against the
(conventionally upper-case) request method — and whose URI rule matches the
request URI, and returns the `ErrEndpointNotFound` signal exactly when no
endpoint satisfies both conditions. -/
theorem matchEndpoint_first_match (engine : RegexEngine) (cfg : Config) (r : Request) :
    (∀ e, matchEndpoint engine cfg r = .ok e ↔
      ∃ pre post, cfg.endpoints = pre ++ e :: post ∧
        endpointAccepts engine e r.method r.requestURI = true ∧
        ∀ e' ∈ pre, endpointAccepts engine e' r.method r.requestURI = false)
    ∧ (matchEndpoint engine cfg r = .error ErrEndpointNotFound ↔
        ∀ e ∈ cfg.endpoints, endpointAccepts engine e r.method r.requestURI = false) :=
  matchEndpointList_spec engine cfg.endpoints r.method r.requestURI

/-- Witness for C1 at a concrete configuration with two endpoints both
matching `GET /a`: the first one (declaration order) is returned. -/
theorem matchEndpoint_first_match_witness :
    matchEndpoint (fun _ _ => .ok false)
      ⟨"", 0, "", [⟨"/a", "normal", "GET", 200, "", []⟩,
        ⟨"/a", "normal", "GET", 201, "", []⟩], ⟨false, false⟩⟩
      ⟨"GET", "/a", fun _ => ""⟩ = .ok ⟨"/a", "normal", "GET", 200, "", []⟩ :=
  ((matchEndpoint_first_match (fun _ _ => .ok false)
      ⟨"", 0, "", [⟨"/a", "normal", "GET", 200, "", []⟩,
        ⟨"/a", "normal", "GET", 201, "", []⟩], ⟨false, false⟩⟩
      ⟨"GET", "/a", fun _ => ""⟩).1 _).mpr
    ⟨[], [⟨"/a", "normal", "GET", 201, "", []⟩], rfl, by decide, by simp⟩

/-- C2: for an endpoint whose declared method matches the request method, a
`normal` (Literal) endpoint is accepted exactly when its URI rule is
byte-for-byte equal to the request's `RequestURI` as received (the full
string, query included — no normalization is applied anywhere), and a
`regex` (Pattern) endpoint is accepted exactly when the regex engine,
handed the raw URI rule and the raw `RequestURI` (the code adds no anchors),
reports a match — Go's `regexp.MatchString`, an unanchored substring
search. -/
theorem endpointAccepts_kind_semantics (engine : RegexEngine) (e : Endpoint) (r : Request)
    (hm : goToUpper e.method = r.method) :
    (e.type = EndpointTypeNormal →
      (endpointAccepts engine e r.method r.requestURI = true ↔ e.uri = r.requestURI))
    ∧ (e.type = EndpointTypeRegex →
      (endpointAccepts engine e r.method r.requestURI = true ↔
        engine e.uri r.requestURI = .ok true)) := by
  constructor
  · intro ht
    simp [endpointAccepts, hm, ht, EndpointTypeNormal, EndpointTypeRegex]
  · intro ht
    simp [endpointAccepts, hm, ht, EndpointTypeNormal, EndpointTypeRegex,
      matchStringDiscardErr_eq_true]

/-- Witness for C2 at a concrete literal endpoint and a concrete pattern
endpoint, with an engine that reports a match for the pattern one. -/
theorem endpointAccepts_kind_semantics_witness :
    (endpointAccepts (fun _ _ => .ok true)
        ⟨"/example?q=1", "normal", "get", 200, "", []⟩ "GET" "/example?q=1"
      = true ↔ ("/example?q=1" : String) = "/example?q=1")
    ∧ (endpointAccepts (fun _ _ => .ok true)
        ⟨"/resource/[0-9]+", "regex", "DELETE", 204, "", []⟩ "DELETE" "/resource/14354"
      = true ↔ (fun (_ _ : String) => (Except.ok true : Except String Bool)) "/resource/[0-9]+" "/resource/14354" = .ok true) :=
  ⟨(endpointAccepts_kind_semantics (fun _ _ => .ok true)
      ⟨"/example?q=1", "normal", "get", 200, "", []⟩
      (Request.mk "GET" "/example?q=1" (fun _ => "")) (by decide)).1 rfl,
   (endpointAccepts_kind_semantics (fun _ _ => .ok true)
      ⟨"/resource/[0-9]+", "regex", "DELETE", 204, "", []⟩
      (Request.mk "DELETE" "/resource/14354" (fun _ => "")) (by decide)).2 rfl⟩

/-- Render-time failures of `RenderTemplateResponse`, as structured variants
carrying the same data the Go errors format: the `os.ReadFile` failure
(mockery.go line 124), the fasttemplate parse failure (line 129), the
missing-environment-variable failure (line 139, naming the env var, the
template and the endpoint URI), and the unknown-tag failure (line 157,
Go message "no matching variable found for tag %s"). -/
inductive RenderError where
  | fileReadError (template : String)
  | templateParseError (template : String)
  | missingEnvVar (envVar template uri : String)
  | noMatchingVariable (tag : String)
deriving DecidableEq, Repr

/-- Log events the pipeline emits that the claims mention: the non-fatal
"HTTP header %s not found for template %s of endpoint %s" line
(mockery.go line 151). -/
inductive LogEvent where
  | headerNotFound (header template uri : String)
deriving DecidableEq, Repr

/-- One template part as fasttemplate scans it: literal text, or the name
between a `<` and the following `>`. -/
inductive TemplatePart where
  | text (s : List Char)
  | tag (name : List Char)
deriving DecidableEq, Repr

/-- Scan to the first occurrence of `c`: returns the preceding characters
and, when `c` occurs, the characters after it. -/
def splitUntil (c : Char) : List Char → List Char × Option (List Char)
  | [] => ([], none)
  | x :: xs =>
    if x = c then ([], some xs)
    else
      let r := splitUntil c xs
      (x :: r.1, r.2)

theorem splitUntil_some_length (c : Char) :
    ∀ (s a b : List Char), splitUntil c s = (a, some b) → b.length < s.length := by
  intro s
  induction s with
  | nil => intro a b h; simp [splitUntil] at h
  | cons x xs ih =>
    intro a b h
    by_cases hx : x = c
    · simp [splitUntil, hx] at h
      simp [← h.2]
    · simp only [splitUntil, if_neg hx] at h
      cases h2 : splitUntil c xs with
      | mk a' o =>
        rw [h2] at h
        cases o with
        | none => simp at h
        | some b' =>
          simp at h
          obtain ⟨ha, hb⟩ := h
          have := ih a' b' h2
          rw [← hb]
          simp only [List.length_cons]
          omega

/-- Fuel-bounded template scanner; the fuel only serves structural
termination and `parseTemplateFuel_congr` shows any fuel above the input
length gives the same answer. -/
def parseTemplateFuel : Nat → List Char → Option (List TemplatePart)
  | 0, _ => none
  | fuel + 1, s =>
    match splitUntil '<' s with
    | (txt, none) => some [.text txt]
    | (txt, some rest) =>
      match splitUntil '>' rest with
      | (_, none) => none
      | (tagName, some rest2) =>
        (parseTemplateFuel fuel rest2).map (fun parts => .text txt :: .tag tagName :: parts)

theorem parseTemplateFuel_congr :
    ∀ (f1 f2 : Nat) (s : List Char), s.length < f1 → s.length < f2 →
      parseTemplateFuel f1 s = parseTemplateFuel f2 s := by
  intro f1
  induction f1 with
  | zero => intro f2 s h1; omega
  | succ n ih =>
    intro f2 s h1 h2
    match f2, h2 with
    | m + 1, h2 =>
      show parseTemplateFuel (n + 1) s = parseTemplateFuel (m + 1) s
      simp only [parseTemplateFuel]
      cases hsp : splitUntil '<' s with
      | mk txt o =>
        cases o with
        | none => rfl
        | some rest =>
          dsimp only
          cases hsp2 : splitUntil '>' rest with
          | mk tagName o2 =>
            cases o2 with
            | none => rfl
            | some rest2 =>
              dsimp only
              have ha := splitUntil_some_length '<' s txt rest hsp
              have hb := splitUntil_some_length '>' rest tagName rest2 hsp2
              rw [ih m rest2 (by omega) (by omega)]

/-- Model of `fasttemplate.NewTemplate(text, "<", ">")` (mockery.go line
127): alternating literal text and tags; a `<` with no closing `>` is the
"cannot find end tag" parse error, modelled as `none`. -/
def parseTemplate (s : List Char) : Option (List TemplatePart) :=
  parseTemplateFuel (s.length + 1) s

/-- The tag-resolution callback of `RenderTemplateResponse` (mockery.go
lines 133-157), iterating the endpoint's variable list in order.  A
matching variable is consulted source by source — environment variable,
then literal value, then header — and a matching variable all of whose
source fields are empty falls through to the next variable; when the list
is exhausted the unknown-tag error is produced. -/
def resolveVars (env : String → Option String) (hdr : String → String) (e : Endpoint)
    (vs : List Variable) (tag : String) : Except RenderError (String × List LogEvent) :=
  match vs with
  | [] => .error (.noMatchingVariable tag)
  | v :: rest =>
    if tag == v.name then
      if v.envVar != "" then
        match env v.envVar with
        | none => .error (.missingEnvVar v.envVar e.template e.uri)
        | some envValue => .ok (envValue, [])
      else if v.value != "" then
        .ok (v.value, [])
      else if v.header != "" then
        let h := hdr v.header
        if h != "" then
          .ok (h, [])
        else
          .ok ("", [.headerNotFound v.header e.template e.uri])
      else
        resolveVars env hdr e rest tag
    else
      resolveVars env hdr e rest tag

/-- Sequential execution of the parsed template against the tag callback
(`ExecuteFuncStringWithErr`): parts are written to the output buffer in
order and the first failing tag aborts the render. -/
def renderParts (env : String → Option String) (hdr : String → String) (e : Endpoint) :
    List TemplatePart → Except RenderError (List Char × List LogEvent)
  | [] => .ok ([], [])
  | .text s :: rest =>
    match renderParts env hdr e rest with
    | .error er => .error er
    | .ok p => .ok (s ++ p.1, p.2)
  | .tag g :: rest =>
    match resolveVars env hdr e e.vars (String.mk g) with
    | .error er => .error er
    | .ok v =>
      match renderParts env hdr e rest with
      | .error er => .error er
      | .ok p => .ok (v.1.data ++ p.1, v.2 ++ p.2)

/-- Model of `MockHandler.RenderTemplateResponse` (mockery.go lines
121-159).  The filesystem (`os.ReadFile`) and the process environment
(`os.LookupEnv`) are parameters; the header lookup is the request's
`headerVars` (the result of `buildHeaderVars`). -/
def renderTemplateResponse (fs env : String → Option String) (e : Endpoint) (r : Request) :
    Except RenderError (String × List LogEvent) :=
  match fs e.template with
  | none => .error (.fileReadError e.template)
  | some content =>
    match parseTemplate content.data with
    | none => .error (.templateParseError e.template)
    | some parts =>
      (renderParts env r.headerVars e parts).map (fun p => (String.mk p.1, p.2))

/-- Startup configuration failures, as structured variants carrying the
same data the Go errors format (mockery.go lines 69-119). -/
inductive ConfigError where
  | proxyURLInvalid
  | missingUri
  | missingResponseCode
  | invalidMethod (method uri : String)
  | invalidType (tp uri : String)
  | templateRenderFailed (template : String) (err : RenderError)
  | templateInvalidJSON (template rendered : String)
deriving DecidableEq, Repr

/-- The method allow-list loop of `ValidateConfig` (mockery.go lines 84-90). -/
def validMethodCheck (m : String) : Bool :=
  validHTTPMethods.any (fun x => goToUpper m == x)

/-- The endpoint-type allow-list loop of `ValidateConfig` (mockery.go lines
95-101): the declared type is lower-cased before comparison. -/
def validTypeCheck (t : String) : Bool :=
  validEndpointTypes.any (fun x => goToLower t == x)

/-- The per-endpoint loop of `ValidateConfig` (mockery.go lines 75-116),
aborting at the first violation.  Note that the URI rule of a `regex`
endpoint is never handed to the regex library here: no definition in this
validator consults a regex engine. -/
def validateEndpoints (fs env : String → Option String) (isJSON : String → Bool) :
    List Endpoint → Except ConfigError Unit
  | [] => .ok ()
  | e :: rest =>
    if e.uri == "" then .error .missingUri
    else if e.responseCode == 0 then .error .missingResponseCode
    else if !validMethodCheck e.method then .error (.invalidMethod e.method e.uri)
    else if !validTypeCheck e.type then .error (.invalidType e.type e.uri)
    else if e.template != "" then
      match renderTemplateResponse fs env e emptyRequest with
      | .error err => .error (.templateRenderFailed e.template err)
      | .ok p =>
        if !isJSON p.1 then .error (.templateInvalidJSON e.template p.1)
        else validateEndpoints fs env isJSON rest
    else validateEndpoints fs env isJSON rest

/-- Model of `MockHandler.ValidateConfig` (mockery.go lines 69-119).
`urlParseOk` models `url.Parse` on the proxy-pass origin; `isJSON` models
`IsJSON` (util.go lines 14-17), i.e. `encoding/json` validity. -/
def validateConfig (urlParseOk : String → Bool) (fs env : String → Option String)
    (isJSON : String → Bool) (cfg : Config) : Except ConfigError Unit :=
  if cfg.proxyPass != "" && !urlParseOk cfg.proxyPass then .error .proxyURLInvalid
  else validateEndpoints fs env isJSON cfg.endpoints

/-- C3 (evidence of the code defect): an otherwise valid endpoint whose
`type` is omitted (empty string) is rejected by `ValidateConfig` — there is
no defaulting to `normal`, although the repository's README states
"Endpoint `type` is defaulted to `normal`" — while the case variant
`"Normal"` is accepted by `ValidateConfig` but can never match at request
time: even with a regex engine that reports a match for every pattern, a
`GET /a` request against the `"Normal"` endpoint for `/a` yields
`ErrEndpointNotFound`, because `MatchEndpoint` compares the type
case-sensitively against the lowercase constants. -/
theorem endpointType_validation_matching_mismatch :
    validateConfig (fun _ => true) (fun _ => none) (fun _ => none) (fun _ => true)
        ⟨"", 0, "", [⟨"/a", "", "GET", 200, "", []⟩], ⟨false, false⟩⟩
      = .error (.invalidType "" "/a")
    ∧ validateConfig (fun _ => true) (fun _ => none) (fun _ => none) (fun _ => true)
        ⟨"", 0, "", [⟨"/a", "Normal", "GET", 200, "", []⟩], ⟨false, false⟩⟩
      = .ok ()
    ∧ matchEndpoint (fun _ _ => .ok true)
        ⟨"", 0, "", [⟨"/a", "Normal", "GET", 200, "", []⟩], ⟨false, false⟩⟩
        ⟨"GET", "/a", fun _ => ""⟩
      = .error ErrEndpointNotFound :=
  ⟨rfl, rfl, rfl⟩

/-- Model of Go `strings.ReplaceAll(t, pat, mask)`: scan left to right,
replacing non-overlapping occurrences of `pat` (leftmost first) by `mask`.
The empty-pattern case never arises because `censorVariables` guards it. -/
def replaceAllL (pat mask : List Char) : List Char → List Char
  | [] => []
  | c :: rest =>
    if h : pat ≠ [] ∧ (c :: rest).take pat.length = pat then
      mask ++ replaceAllL pat mask ((c :: rest).drop pat.length)
    else
      c :: replaceAllL pat mask rest
termination_by t => t.length
decreasing_by
  · have hp : 0 < pat.length := List.length_pos.mpr h.1
    simp only [List.length_drop, List.length_cons]
    omega
  · simp

/-- The value `censorVariables` replaces for one variable (util.go lines
30-40): the literal `value` when non-empty, overridden by the environment
variable's value whenever `env_var` is declared and set. -/
def resolvedSecret (env : String → Option String) (v : Variable) : String :=
  let afterValue := if v.value != "" then v.value else ""
  if v.envVar != "" then
    match env v.envVar with
    | some envValue => envValue
    | none => afterValue
  else afterValue

/-- One iteration of the `censorVariables` loop (util.go lines 29-45):
replace the resolved secret, when non-empty, by a same-length run of `*`. -/
def censorOne (env : String → Option String) (text : String) (v : Variable) : String :=
  let s := resolvedSecret env v
  if s != "" then
    String.mk (replaceAllL s.data (List.replicate s.data.length '*') text.data)
  else text

/-- Model of `censorVariables` (util.go lines 28-48). -/
def censorVariables (env : String → Option String) (text : String) (vs : List Variable) :
    String :=
  vs.foldl (censorOne env) text

/-- The pattern occurs somewhere in the text. -/
def occursIn (pat t : List Char) : Prop := ∃ pre post, t = pre ++ pat ++ post

/-- What `logRequestAndRespond` writes to the client: status, whether the
`Content-Type: application/json` header was set, and the body. -/
structure HttpResponse where
  status : Int
  contentTypeJSON : Bool
  body : String
deriving DecidableEq, Repr

/-- The generic client-facing error body (util.go line 67, mockery.go via
`errorHandler`). -/
def genericErrorBody : String := "Unknown error has occurred, see logs\n"

/-- Model of `logRequestAndRespond` (util.go lines 50-76) restricted to what
it writes to the client: when `jsonResponse` is set and the body fails the
JSON check, a 500 with the generic message is written instead; otherwise the
given status and body, with the JSON content type set iff `jsonResponse`. -/
def logRequestAndRespond (isJSON : String → Bool) (status : Int) (res : String)
    (jsonResponse : Bool) : HttpResponse :=
  if jsonResponse && !isJSON res then
    ⟨500, false, genericErrorBody⟩
  else
    ⟨status, jsonResponse, res⟩

/-- Client response headers as Go's `http.Header` map: every absent key is
the empty value list. -/
def HeaderMap : Type := String → List String

/-- The fresh `w.Header()` map before the proxy copies anything. -/
def emptyHeaderMap : HeaderMap := fun _ => []

/-- Go `w.Header().Set(k, v)`: REPLACES the key's values by the single
value `v` (proxyHandler uses `Set`, not `Add`; mockery.go line 251). -/
def headerSet (h : HeaderMap) (k v : String) : HeaderMap :=
  fun k' => if k' == k then [v] else h k'

/-- The header-copy loop of `proxyHandler` (mockery.go lines 249-253):
for every upstream key, `Set` is called once per value in order. -/
def copyUpstreamHeaders (h : HeaderMap) : List (String × List String) → HeaderMap
  | [] => h
  | (k, vs) :: rest =>
    copyUpstreamHeaders (vs.foldl (fun acc v => headerSet acc k v) h) rest

/-- The upstream response as `proxyHandler` reads it after a successful
round trip: status code, headers (each key with its ordered value list, as
Go's `http.Header`), and the fully read body. -/
structure UpstreamResponse where
  status : Int
  headers : List (String × List String)
  body : String

/-- The tail of `proxyHandler` after a successful upstream call (mockery.go
lines 249-267): copy headers with `Set`, optionally attach the body to the
request log context, and respond through `logRequestAndRespond` with
`jsonResponse := IsJSON(body)`.  Returns the client response, the copied
header map, and the logged response body (if response logging is on). -/
def proxyRespond (isJSON : String → Bool) (up : UpstreamResponse) (logResponse : Bool) :
    HttpResponse × HeaderMap × Option String :=
  let hm := copyUpstreamHeaders emptyHeaderMap up.headers
  let logged := if logResponse then some up.body else none
  (logRequestAndRespond isJSON up.status up.body (isJSON up.body), hm, logged)

/-- Outcome of `ServeHTTP` from the match stage onward: either a response
written by `logRequestAndRespond` (paired with the response body attached to
the log context, i.e. the censored body when response logging is on), or a
hand-off to `proxyHandler`.  The request-body capture stage (mockery.go
lines 180-193) only logs the request body and re-attaches it to the request;
it changes neither the response nor the response-body log, so it is not
modelled. -/
inductive DispatchOutcome where
  | respond (res : HttpResponse) (loggedResponseBody : Option String)
  | proxyForward

/-- Model of `MockHandler.ServeHTTP` (mockery.go lines 179-227) from the
match stage onward.  The only matcher error is `ErrEndpointNotFound`, so the
`errors.Is` branch (lines 197-205) is the whole error case. -/
def serveHTTP (engine : RegexEngine) (fs env : String → Option String)
    (isJSON : String → Bool) (cfg : Config) (r : Request) : DispatchOutcome :=
  match matchEndpoint engine cfg r with
  | .error _ =>
    if cfg.proxyPass != "" then
      .proxyForward
    else
      .respond (logRequestAndRespond isJSON 404 "Not found\n" false) none
  | .ok endpoint =>
    if endpoint.template == "" then
      .respond (logRequestAndRespond isJSON endpoint.responseCode "" false) none
    else
      match renderTemplateResponse fs env endpoint r with
      | .error _ =>
        .respond (logRequestAndRespond isJSON 500 genericErrorBody false) none
      | .ok p =>
        let logged :=
          if cfg.logging.responseContents then
            some (censorVariables env p.1 endpoint.vars)
          else none
        .respond (logRequestAndRespond isJSON endpoint.responseCode p.1 true) logged

theorem resolveVars_append_skip (env : String → Option String) (hdr : String → String)
    (e : Endpoint) (pre rest : List Variable) (tag : String)
    (hpre : ∀ v' ∈ pre, v'.name ≠ tag) :
    resolveVars env hdr e (pre ++ rest) tag = resolveVars env hdr e rest tag := by
  induction pre with
  | nil => rfl
  | cons v' pre' ih =>
    have hne : (tag == v'.name) = false := by
      have := hpre v' (by simp)
      simp [bne_iff_ne]
      exact fun heq => this heq.symm
    simp only [List.cons_append, resolveVars, hne, Bool.false_eq_true, if_false]
    exact ih (fun v hv => hpre v (by simp [hv]))

theorem resolveVars_match_head (env : String → Option String) (hdr : String → String)
    (e : Endpoint) (v : Variable) (rest : List Variable) (tag : String)
    (hname : v.name = tag) :
    resolveVars env hdr e (v :: rest) tag =
      if v.envVar != "" then
        match env v.envVar with
        | none => .error (.missingEnvVar v.envVar e.template e.uri)
        | some envValue => .ok (envValue, [])
      else if v.value != "" then
        .ok (v.value, [])
      else if v.header != "" then
        (if hdr v.header != "" then .ok (hdr v.header, [])
         else .ok ("", [.headerNotFound v.header e.template e.uri]))
      else
        resolveVars env hdr e rest tag := by
  have ht : (tag == v.name) = true := by simp [hname]
  simp only [resolveVars, ht, if_true]

theorem renderParts_single_tag (env : String → Option String) (hdr : String → String)
    (e : Endpoint) (a g b : List Char) :
    renderParts env hdr e [.text a, .tag g, .text b] =
      match resolveVars env hdr e e.vars (String.mk g) with
      | .error er => .error er
      | .ok p => .ok (a ++ p.1.data ++ b, p.2) := by
  cases hres : resolveVars env hdr e e.vars (String.mk g) with
  | error er => simp [renderParts, hres]
  | ok p => simp [renderParts, hres, List.append_assoc]

/-- Rendering through a template whose parse is literal text, one tag, then
literal text: the result is the tag's resolution spliced between the text
parts, or the resolution's error. -/
theorem renderTemplateResponse_single_tag (fs env : String → Option String)
    (e : Endpoint) (r : Request) (content : String) (a g b : List Char)
    (hfs : fs e.template = some content)
    (hparse : parseTemplate content.data = some [.text a, .tag g, .text b]) :
    renderTemplateResponse fs env e r =
      match resolveVars env r.headerVars e e.vars (String.mk g) with
      | .error er => .error er
      | .ok p => .ok (String.mk (a ++ p.1.data ++ b), p.2) := by
  simp only [renderTemplateResponse, hfs, hparse, renderParts_single_tag]
  cases hres : resolveVars env r.headerVars e e.vars (String.mk g) with
  | error er => simp [Except.map]
  | ok p => simp [Except.map]

/-- C4: for a template tag resolved by `RenderTemplateResponse`, the first
declared variable whose name equals the tag is used, and its sources are
consulted with the precedence environment variable > literal value > request
header: when an `env_var` source is declared it is consulted first (its
lookup decides the outcome, the other sources are ignored); otherwise a
non-empty literal `value` is substituted; otherwise the `header` source is
consulted. -/
theorem renderTemplateResponse_source_precedence (fs env : String → Option String)
    (e : Endpoint) (r : Request) (content : String) (a g b : List Char)
    (v : Variable) (pre rest : List Variable)
    (hfs : fs e.template = some content)
    (hparse : parseTemplate content.data = some [.text a, .tag g, .text b])
    (hvars : e.vars = pre ++ v :: rest)
    (hpre : ∀ v' ∈ pre, v'.name ≠ String.mk g)
    (hname : v.name = String.mk g) :
    (v.envVar ≠ "" →
      renderTemplateResponse fs env e r =
        match env v.envVar with
        | none => .error (.missingEnvVar v.envVar e.template e.uri)
        | some x => .ok (String.mk (a ++ x.data ++ b), []))
    ∧ (v.envVar = "" → v.value ≠ "" →
      renderTemplateResponse fs env e r = .ok (String.mk (a ++ v.value.data ++ b), []))
    ∧ (v.envVar = "" → v.value = "" → v.header ≠ "" →
      renderTemplateResponse fs env e r =
        if r.headerVars v.header ≠ "" then
          .ok (String.mk (a ++ (r.headerVars v.header).data ++ b), [])
        else
          .ok (String.mk (a ++ b), [.headerNotFound v.header e.template e.uri])) := by
  have hmain : renderTemplateResponse fs env e r =
      match resolveVars env r.headerVars e e.vars (String.mk g) with
      | .error er => .error er
      | .ok p => .ok (String.mk (a ++ p.1.data ++ b), p.2) :=
    renderTemplateResponse_single_tag fs env e r content a g b hfs hparse
  have hskip : resolveVars env r.headerVars e e.vars (String.mk g) =
      resolveVars env r.headerVars e (v :: rest) (String.mk g) := by
    rw [hvars]; exact resolveVars_append_skip env r.headerVars e pre (v :: rest) _ hpre
  have hhead := resolveVars_match_head env r.headerVars e v rest (String.mk g) hname
  refine ⟨?_, ?_, ?_⟩
  · intro henv
    have he : (v.envVar != "") = true := by simp [bne_iff_ne, henv]
    rw [hmain, hskip, hhead, if_pos he]
    cases env v.envVar <;> simp
  · intro henv hval
    have he : (v.envVar != "") = false := by simp [henv]
    have hv : (v.value != "") = true := by simp [bne_iff_ne, hval]
    rw [hmain, hskip, hhead, if_neg (by simp [he]), if_pos hv]
  · intro henv hval hhd
    have he : (v.envVar != "") = false := by simp [henv]
    have hv : (v.value != "") = false := by simp [hval]
    have hh : (v.header != "") = true := by simp [bne_iff_ne, hhd]
    rw [hmain, hskip, hhead, if_neg (by simp [he]), if_neg (by simp [hv]), if_pos hh]
    by_cases hhv : r.headerVars v.header ≠ ""
    · have : (r.headerVars v.header != "") = true := by simp [bne_iff_ne, hhv]
      rw [if_pos this, if_pos hhv]
    · have hhv' : r.headerVars v.header = "" := not_ne_iff.mp hhv
      have : (r.headerVars v.header != "") = false := by simp [hhv']
      rw [if_neg (by simp [this]), if_neg hhv]
      simp

/-- Witness for C4 at a concrete endpoint whose variable declares all three
sources: the environment variable wins. -/
theorem renderTemplateResponse_source_precedence_witness :
    renderTemplateResponse (fun _ => some "k = <item1>;")
        (fun n => if n == "SECRET" then some "fromEnv" else none)
        ⟨"/e", "normal", "GET", 200, "t.json", [⟨"item1", "SECRET", "X-H", "lit"⟩]⟩
        ⟨"GET", "/e", fun _ => "hdrval"⟩ =
      .ok (String.mk (("k = ".data) ++ ("fromEnv".data) ++ (";".data)), []) := by
  have h := (renderTemplateResponse_source_precedence
    (fun _ => some "k = <item1>;")
    (fun n => if n == "SECRET" then some "fromEnv" else none)
    ⟨"/e", "normal", "GET", 200, "t.json", [⟨"item1", "SECRET", "X-H", "lit"⟩]⟩
    ⟨"GET", "/e", fun _ => "hdrval"⟩
    "k = <item1>;" ("k = ".data) ("item1".data) (";".data)
    ⟨"item1", "SECRET", "X-H", "lit"⟩ [] []
    rfl (by decide) rfl (by simp) (by decide)).1 (by decide)
  simpa using h

/-- C5: rendering a tag whose variable declares an environment-variable
source naming an unset environment variable fails with the `RenderError`
naming that env var, the template and the endpoint URI; whereas a variable
declaring only a header source, when the header is absent from the request,
substitutes the empty string, emits the header-not-found log event, and the
render succeeds. -/
theorem renderTemplateResponse_envMissing_fails_headerAbsent_empty
    (fs env : String → Option String) (e : Endpoint) (r : Request) (content : String)
    (a g b : List Char) (v : Variable) (pre rest : List Variable)
    (hfs : fs e.template = some content)
    (hparse : parseTemplate content.data = some [.text a, .tag g, .text b])
    (hvars : e.vars = pre ++ v :: rest)
    (hpre : ∀ v' ∈ pre, v'.name ≠ String.mk g)
    (hname : v.name = String.mk g) :
    (v.envVar ≠ "" → env v.envVar = none →
      renderTemplateResponse fs env e r = .error (.missingEnvVar v.envVar e.template e.uri))
    ∧ (v.envVar = "" → v.value = "" → v.header ≠ "" → r.headerVars v.header = "" →
      renderTemplateResponse fs env e r =
        .ok (String.mk (a ++ b), [.headerNotFound v.header e.template e.uri])) := by
  have hmain : renderTemplateResponse fs env e r =
      match resolveVars env r.headerVars e e.vars (String.mk g) with
      | .error er => .error er
      | .ok p => .ok (String.mk (a ++ p.1.data ++ b), p.2) :=
    renderTemplateResponse_single_tag fs env e r content a g b hfs hparse
  have hskip : resolveVars env r.headerVars e e.vars (String.mk g) =
      resolveVars env r.headerVars e (v :: rest) (String.mk g) := by
    rw [hvars]; exact resolveVars_append_skip env r.headerVars e pre (v :: rest) _ hpre
  have hhead := resolveVars_match_head env r.headerVars e v rest (String.mk g) hname
  constructor
  · intro henv hunset
    have he : (v.envVar != "") = true := by simp [bne_iff_ne, henv]
    rw [hmain, hskip, hhead, if_pos he, hunset]
  · intro henv hval hhd habsent
    have he : (v.envVar != "") = false := by simp [henv]
    have hv : (v.value != "") = false := by simp [hval]
    have hh : (v.header != "") = true := by simp [bne_iff_ne, hhd]
    have hha : (r.headerVars v.header != "") = false := by simp [habsent]
    rw [hmain, hskip, hhead, if_neg (by simp [he]), if_neg (by simp [hv]), if_pos hh,
      if_neg (by simp [hha])]
    simp

/-- Witness for C5: an unset env var fails naming (env var, template, URI);
an absent header substitutes the empty string and only logs. -/
theorem renderTemplateResponse_envMissing_fails_headerAbsent_empty_witness :
    (renderTemplateResponse (fun _ => some "<item1>") (fun _ => none)
        ⟨"/e", "normal", "GET", 200, "t.json", [⟨"item1", "UNSET_ENV", "", ""⟩]⟩
        ⟨"GET", "/e", fun _ => ""⟩
      = .error (.missingEnvVar "UNSET_ENV" "t.json" "/e"))
    ∧ (renderTemplateResponse (fun _ => some "<item1>") (fun _ => none)
        ⟨"/e", "normal", "GET", 200, "t.json", [⟨"item1", "", "X-Token", ""⟩]⟩
        ⟨"GET", "/e", fun _ => ""⟩
      = .ok (String.mk ([] ++ []), [.headerNotFound "X-Token" "t.json" "/e"])) :=
  ⟨(renderTemplateResponse_envMissing_fails_headerAbsent_empty
      (fun _ => some "<item1>") (fun _ => none)
      ⟨"/e", "normal", "GET", 200, "t.json", [⟨"item1", "UNSET_ENV", "", ""⟩]⟩
      ⟨"GET", "/e", fun _ => ""⟩ "<item1>" [] ("item1".data) []
      ⟨"item1", "UNSET_ENV", "", ""⟩ [] []
      rfl (by decide) rfl (by simp) (by decide)).1 (by decide) rfl,
   (renderTemplateResponse_envMissing_fails_headerAbsent_empty
      (fun _ => some "<item1>") (fun _ => none)
      ⟨"/e", "normal", "GET", 200, "t.json", [⟨"item1", "", "X-Token", ""⟩]⟩
      ⟨"GET", "/e", fun _ => ""⟩ "<item1>" [] ("item1".data) []
      ⟨"item1", "", "X-Token", ""⟩ [] []
      rfl (by decide) rfl (by simp) (by decide)).2 rfl rfl (by decide) rfl⟩

/-- C10: a declared variable whose name equals the tag but whose `env_var`,
`value` and `header` fields are all empty does not resolve the tag — the
resolver falls through to the remaining variables — and when no declared
variable resolves the tag (every variable either has a different name or
has all sources empty) the resolution, and hence the render of a template
containing that tag, fails with the "no matching variable found" error. -/
theorem resolveVars_empty_sources_skip_and_unknown_tag :
    (∀ (env : String → Option String) (hdr : String → String) (e : Endpoint)
        (v : Variable) (rest : List Variable) (tag : String),
      v.name = tag → v.envVar = "" → v.value = "" → v.header = "" →
        resolveVars env hdr e (v :: rest) tag = resolveVars env hdr e rest tag)
    ∧ (∀ (env : String → Option String) (hdr : String → String) (e : Endpoint)
        (vs : List Variable) (tag : String),
      (∀ v ∈ vs, v.name ≠ tag ∨ (v.envVar = "" ∧ v.value = "" ∧ v.header = "")) →
        resolveVars env hdr e vs tag = .error (.noMatchingVariable tag))
    ∧ (∀ (fs env : String → Option String) (e : Endpoint) (r : Request)
        (content : String) (a g b : List Char),
      fs e.template = some content →
      parseTemplate content.data = some [.text a, .tag g, .text b] →
      (∀ v ∈ e.vars, v.name ≠ String.mk g ∨
        (v.envVar = "" ∧ v.value = "" ∧ v.header = "")) →
        renderTemplateResponse fs env e r =
          .error (.noMatchingVariable (String.mk g))) := by
  have hskip : ∀ (env : String → Option String) (hdr : String → String) (e : Endpoint)
      (v : Variable) (rest : List Variable) (tag : String),
      v.name = tag → v.envVar = "" → v.value = "" → v.header = "" →
        resolveVars env hdr e (v :: rest) tag = resolveVars env hdr e rest tag := by
    intro env hdr e v rest tag hname henv hval hhd
    have ht : (tag == v.name) = true := by simp [hname]
    have he : (v.envVar != "") = false := by simp [henv]
    have hv : (v.value != "") = false := by simp [hval]
    have hh : (v.header != "") = false := by simp [hhd]
    simp only [resolveVars, ht, if_true, he, hv, hh, Bool.false_eq_true, if_false]
  have hunknown : ∀ (env : String → Option String) (hdr : String → String) (e : Endpoint)
      (vs : List Variable) (tag : String),
      (∀ v ∈ vs, v.name ≠ tag ∨ (v.envVar = "" ∧ v.value = "" ∧ v.header = "")) →
        resolveVars env hdr e vs tag = .error (.noMatchingVariable tag) := by
    intro env hdr e vs tag
    induction vs with
    | nil => intro h; rfl
    | cons v vs' ih =>
      intro h
      by_cases hname : v.name = tag
      · rcases h v (by simp) with hne | ⟨he, hv, hh⟩
        · exact absurd hname hne
        · rw [hskip env hdr e v vs' tag hname he hv hh]
          exact ih (fun w hw => h w (by simp [hw]))
      · have ht : (tag == v.name) = false := by
          simp [bne_iff_ne]
          exact fun heq => hname heq.symm
        simp only [resolveVars, ht, Bool.false_eq_true, if_false]
        exact ih (fun w hw => h w (by simp [hw]))
  refine ⟨hskip, hunknown, ?_⟩
  intro fs env e r content a g b hfs hparse hall
  rw [renderTemplateResponse_single_tag fs env e r content a g b hfs hparse,
    hunknown env r.headerVars e e.vars (String.mk g) hall]

/-- Witness for C10: a variable with the right name but all-empty sources is
skipped, and with no resolving variable at all the unknown-tag error is
produced, also through a full render. -/
theorem resolveVars_empty_sources_skip_and_unknown_tag_witness :
    (resolveVars (fun _ => none) (fun _ => "") ⟨"/e", "normal", "GET", 200, "t.json", []⟩
        [⟨"item1", "", "", ""⟩, ⟨"item1", "", "", "late"⟩] "item1"
      = resolveVars (fun _ => none) (fun _ => "") ⟨"/e", "normal", "GET", 200, "t.json", []⟩
        [⟨"item1", "", "", "late"⟩] "item1")
    ∧ (renderTemplateResponse (fun _ => some "<item1>") (fun _ => none)
        ⟨"/e", "normal", "GET", 200, "t.json", [⟨"other", "", "", "x"⟩, ⟨"item1", "", "", ""⟩]⟩
        ⟨"GET", "/e", fun _ => ""⟩
      = .error (.noMatchingVariable "item1")) :=
  ⟨resolveVars_empty_sources_skip_and_unknown_tag.1 (fun _ => none) (fun _ => "")
      ⟨"/e", "normal", "GET", 200, "t.json", []⟩ ⟨"item1", "", "", ""⟩
      [⟨"item1", "", "", "late"⟩] "item1" rfl rfl rfl rfl,
   resolveVars_empty_sources_skip_and_unknown_tag.2.2 (fun _ => some "<item1>")
      (fun _ => none)
      ⟨"/e", "normal", "GET", 200, "t.json", [⟨"other", "", "", "x"⟩, ⟨"item1", "", "", ""⟩]⟩
      ⟨"GET", "/e", fun _ => ""⟩ "<item1>" [] ("item1".data) []
      rfl (by decide) (by decide)⟩

/-- C6: on the stub path, a successfully rendered body that fails the JSON
check makes the dispatcher respond 500 with the generic message instead of
the rendered body (even though the endpoint's template passed startup
validation — no such assumption is needed here); on the proxy path the
JSON check never rejects: `jsonResponse` is `IsJSON(body)` itself, so a
non-JSON upstream body is relayed with the upstream's status code. -/
theorem stub_nonJSON_500_proxy_exempt :
    (∀ (engine : RegexEngine) (fs env : String → Option String) (isJSON : String → Bool)
        (cfg : Config) (r : Request) (e : Endpoint) (p : String × List LogEvent),
      matchEndpoint engine cfg r = .ok e → e.template ≠ "" →
      renderTemplateResponse fs env e r = .ok p → isJSON p.1 = false →
        serveHTTP engine fs env isJSON cfg r =
          .respond ⟨500, false, genericErrorBody⟩
            (if cfg.logging.responseContents then some (censorVariables env p.1 e.vars)
             else none))
    ∧ (∀ (isJSON : String → Bool) (up : UpstreamResponse) (lg : Bool),
        isJSON up.body = false →
          (proxyRespond isJSON up lg).1 = ⟨up.status, false, up.body⟩) := by
  constructor
  · intro engine fs env isJSON cfg r e p hmatch htmpl hrender hjson
    have ht : (e.template == "") = false := by
      simp only [beq_eq_false_iff_ne, ne_eq]; exact htmpl
    simp only [serveHTTP, hmatch, ht, Bool.false_eq_true, if_false, hrender,
      logRequestAndRespond, hjson, Bool.not_false, Bool.and_true, if_true]
  · intro isJSON up lg h
    simp [proxyRespond, logRequestAndRespond, h]

/-- Witness for C6: a rendered non-JSON stub body turns into a 500 with the
generic message, while a non-JSON upstream body keeps the upstream's 502
status and body. -/
theorem stub_nonJSON_500_proxy_exempt_witness :
    (serveHTTP (fun _ _ => .ok false) (fun _ => some "notjson") (fun _ => none)
        (fun _ => false)
        ⟨"", 0, "", [⟨"/t", "normal", "GET", 200, "t.json", []⟩], ⟨false, false⟩⟩
        ⟨"GET", "/t", fun _ => ""⟩
      = .respond ⟨500, false, genericErrorBody⟩ none)
    ∧ ((proxyRespond (fun _ => false) ⟨502, [("X-A", ["v"])], "oops"⟩ false).1
      = ⟨502, false, "oops"⟩) :=
  ⟨stub_nonJSON_500_proxy_exempt.1 (fun _ _ => .ok false) (fun _ => some "notjson")
      (fun _ => none) (fun _ => false)
      ⟨"", 0, "", [⟨"/t", "normal", "GET", 200, "t.json", []⟩], ⟨false, false⟩⟩
      ⟨"GET", "/t", fun _ => ""⟩ ⟨"/t", "normal", "GET", 200, "t.json", []⟩
      ("notjson", []) rfl (by decide) rfl rfl,
   stub_nonJSON_500_proxy_exempt.2 (fun _ => false) ⟨502, [("X-A", ["v"])], "oops"⟩
      false rfl⟩

/-- C9: `ValidateConfig` accepts a `regex` endpoint whatever its URI rule —
the validator never consults a regex engine (none of its definitions takes
one), so compilability is not checked at startup — and at request time a
pattern whose compilation errors is silently discarded: the endpoint is
accepted by no request and the matching loop just moves on, raising no
error. -/
theorem regex_compile_error_silent :
    (∀ (urlOk : String → Bool) (fs env : String → Option String) (isJSON : String → Bool)
        (ip : String) (port : Int) (lg : Logging) (e : Endpoint),
      e.uri ≠ "" → e.responseCode ≠ 0 → validMethodCheck e.method = true →
      e.type = EndpointTypeRegex → e.template = "" →
        validateConfig urlOk fs env isJSON ⟨ip, port, "", [e], lg⟩ = .ok ())
    ∧ (∀ (engine : RegexEngine) (e : Endpoint) (rest : List Endpoint) (m u msg : String),
        e.type = EndpointTypeRegex → engine e.uri u = .error msg →
          endpointAccepts engine e m u = false
          ∧ matchEndpointList engine (e :: rest) m u = matchEndpointList engine rest m u) := by
  constructor
  · intro urlOk fs env isJSON ip port lg e huri hcode hmeth htype htmpl
    have h1 : (e.uri == "") = false := by
      simp only [beq_eq_false_iff_ne, ne_eq]; exact huri
    have h2 : (e.responseCode == 0) = false := by
      simp only [beq_eq_false_iff_ne, ne_eq]; exact hcode
    have h4 : validTypeCheck e.type = true := by rw [htype]; rfl
    have h5 : (e.template != "") = false := by simp [htmpl]
    simp [validateConfig, validateEndpoints, h1, h2, hmeth, h4, h5]
  · intro engine e rest m u msg htype herr
    have hdiscard : matchStringDiscardErr engine e.uri u = false := by
      simp [matchStringDiscardErr, herr]
    have hnotnormal : (e.type == EndpointTypeNormal) = false := by
      rw [htype]; rfl
    have hacc : endpointAccepts engine e m u = false := by
      simp [endpointAccepts, hdiscard, hnotnormal]
    exact ⟨hacc, by rw [matchEndpointList_cons, if_neg (by simp [hacc])]⟩

/-- Witness for C9 with the non-compilable pattern `[`: startup validation
accepts it, and with an engine that reports a compile error the endpoint
matches nothing yet `MatchEndpoint` behaves as if the endpoint were absent. -/
theorem regex_compile_error_silent_witness :
    (validateConfig (fun _ => true) (fun _ => none) (fun _ => none) (fun _ => true)
        ⟨"", 0, "", [⟨"[", "regex", "GET", 200, "", []⟩], ⟨false, false⟩⟩ = .ok ())
    ∧ (endpointAccepts (fun _ _ => .error "missing closing ]")
        ⟨"[", "regex", "GET", 200, "", []⟩ "GET" "/x" = false
      ∧ matchEndpointList (fun _ _ => .error "missing closing ]")
          [⟨"[", "regex", "GET", 200, "", []⟩] "GET" "/x"
        = matchEndpointList (fun _ _ => .error "missing closing ]") [] "GET" "/x") :=
  ⟨regex_compile_error_silent.1 (fun _ => true) (fun _ => none) (fun _ => none)
      (fun _ => true) "" 0 ⟨false, false⟩ ⟨"[", "regex", "GET", 200, "", []⟩
      (by decide) (by decide) (by decide) rfl rfl,
   regex_compile_error_silent.2 (fun _ _ => .error "missing closing ]")
      ⟨"[", "regex", "GET", 200, "", []⟩ [] "GET" "/x" "missing closing ]" rfl rfl⟩

theorem foldl_headerSet_self (k : String) (vs : List String) (h : HeaderMap) :
    (vs.foldl (fun acc v => headerSet acc k v) h) k =
      match vs.getLast? with
      | none => h k
      | some v => [v] := by
  induction vs generalizing h with
  | nil => rfl
  | cons v vs' ih =>
    rw [List.foldl_cons, ih]
    cases vs' with
    | nil => simp [headerSet]
    | cons w ws =>
      rw [List.getLast?_cons_cons]
      cases hgl : (w :: ws).getLast? with
      | none =>
        have hne : (w :: ws) ≠ [] := by simp
        rw [List.getLast?_eq_getLast_of_ne_nil hne] at hgl
        simp at hgl
      | some x => rfl

theorem foldl_headerSet_other (k k' : String) (hne : k' ≠ k) (vs : List String)
    (h : HeaderMap) :
    (vs.foldl (fun acc v => headerSet acc k v) h) k' = h k' := by
  induction vs generalizing h with
  | nil => rfl
  | cons v vs' ih =>
    rw [List.foldl_cons, ih]
    simp [headerSet, hne]

theorem copyUpstreamHeaders_not_mem (entries : List (String × List String)) (h : HeaderMap)
    (k : String) (hk : k ∉ entries.map Prod.fst) :
    copyUpstreamHeaders h entries k = h k := by
  induction entries generalizing h with
  | nil => rfl
  | cons kv rest ih =>
    obtain ⟨k0, vs0⟩ := kv
    simp only [List.map_cons, List.mem_cons, not_or] at hk
    rw [copyUpstreamHeaders, ih _ hk.2]
    exact foldl_headerSet_other k0 k hk.1 vs0 h

theorem copyUpstreamHeaders_lookup (entries : List (String × List String)) (h : HeaderMap)
    (hnodup : (entries.map Prod.fst).Nodup) (k : String) (vs : List String)
    (hmem : (k, vs) ∈ entries) :
    copyUpstreamHeaders h entries k =
      match vs.getLast? with
      | none => h k
      | some v => [v] := by
  induction entries generalizing h with
  | nil => simp at hmem
  | cons kv rest ih =>
    obtain ⟨k0, vs0⟩ := kv
    rw [List.map_cons, List.nodup_cons] at hnodup
    rcases List.mem_cons.mp hmem with heq | hrest
    · obtain ⟨rfl, rfl⟩ := Prod.mk.injEq .. ▸ heq
      rw [copyUpstreamHeaders,
        copyUpstreamHeaders_not_mem rest _ k hnodup.1,
        foldl_headerSet_self]
    · have hkmem : k ∈ rest.map Prod.fst :=
        List.mem_map.mpr ⟨(k, vs), hrest, rfl⟩
      have hne : k ≠ k0 := fun hkk => hnodup.1 (hkk ▸ hkmem)
      rw [copyUpstreamHeaders, ih _ hnodup.2 hrest,
        foldl_headerSet_other k0 k hne vs0 h]

/-- C8 counterexample: an upstream header with two values is NOT fully
preserved — the proxy's copy loop calls `Set` per value, so only the last
value survives; `["b"] ≠ ["a", "b"]` refutes the claim that all values of
each header name are copied. -/
theorem proxy_multivalued_header_lost :
    (proxyRespond (fun _ => false) ⟨200, [("Set-Cookie", ["a", "b"])], "x"⟩ false).2.1
        "Set-Cookie" = ["b"]
    ∧ (["b"] : List String) ≠ ["a", "b"] :=
  ⟨rfl, by decide⟩

/-- C8 amended: on a successful proxy forward every upstream header NAME is
copied, but because the copy loop uses `Set` per value, a header keeps only
the LAST of its upstream values (single-valued headers are thereby copied
verbatim); the upstream status code is passed through unchanged and the
upstream body is relayed byte-for-byte (the response's JSON content-type
flag is `IsJSON(body)`, and the JSON check cannot reject the body). -/
theorem proxyRespond_headers_status_body (isJSON : String → Bool) (up : UpstreamResponse)
    (lg : Bool) (hnodup : (up.headers.map Prod.fst).Nodup) :
    (∀ k vs, (k, vs) ∈ up.headers →
      (proxyRespond isJSON up lg).2.1 k =
        match vs.getLast? with
        | none => []
        | some v => [v])
    ∧ (proxyRespond isJSON up lg).1 = ⟨up.status, isJSON up.body, up.body⟩ := by
  constructor
  · intro k vs hmem
    have := copyUpstreamHeaders_lookup up.headers emptyHeaderMap hnodup k vs hmem
    simpa [proxyRespond, emptyHeaderMap] using this
  · cases hj : isJSON up.body <;>
      simp [proxyRespond, logRequestAndRespond, hj]

/-- Witness for the amended C8 at a concrete upstream response with one
multi-valued and one single-valued header. -/
theorem proxyRespond_headers_status_body_witness :
    ((proxyRespond (fun _ => false)
        ⟨200, [("Set-Cookie", ["a", "b"]), ("X-One", ["v"])], "x"⟩ false).2.1
        "Set-Cookie" = ["b"])
    ∧ ((proxyRespond (fun _ => false)
        ⟨200, [("Set-Cookie", ["a", "b"]), ("X-One", ["v"])], "x"⟩ false).1
      = ⟨200, false, "x"⟩) :=
  ⟨(proxyRespond_headers_status_body (fun _ => false)
      ⟨200, [("Set-Cookie", ["a", "b"]), ("X-One", ["v"])], "x"⟩ false
      (by decide)).1 "Set-Cookie" ["a", "b"] (by simp),
   (proxyRespond_headers_status_body (fun _ => false)
      ⟨200, [("Set-Cookie", ["a", "b"]), ("X-One", ["v"])], "x"⟩ false
      (by decide)).2⟩

theorem replaceAllL_length (pat mask : List Char) (hm : mask.length = pat.length) :
    ∀ t, (replaceAllL pat mask t).length = t.length := by
  have H : ∀ n t, t.length ≤ n → (replaceAllL pat mask t).length = t.length := by
    intro n
    induction n with
    | zero =>
      intro t ht
      have ht0 : t = [] := List.eq_nil_of_length_eq_zero (Nat.le_zero.mp ht)
      subst ht0
      simp [replaceAllL]
    | succ n ih =>
      intro t ht
      match t with
      | [] => simp [replaceAllL]
      | c :: rest =>
        by_cases hcond : pat ≠ [] ∧ (c :: rest).take pat.length = pat
        · rw [replaceAllL, dif_pos hcond]
          have hplen : 0 < pat.length := List.length_pos.mpr hcond.1
          have htake : pat.length ≤ rest.length + 1 := by
            have h2 := congrArg List.length hcond.2
            simp [List.length_take] at h2
            omega
          rw [List.length_append, ih _ ?hle]
          case hle =>
            simp only [List.length_drop, List.length_cons]
            simp only [List.length_cons] at ht
            omega
          simp only [List.length_drop, List.length_cons, hm]
          omega
        · rw [replaceAllL, dif_neg hcond]
          simp only [List.length_cons] at ht ⊢
          rw [ih rest (by omega)]
  intro t; exact H t.length t le_rfl

theorem replaceAllL_take_pres (pat : List Char) :
    ∀ t u, '*' ∉ u →
      (replaceAllL pat (List.replicate pat.length '*') t).take u.length = u →
      t.take u.length = u := by
  have H : ∀ n t u, t.length ≤ n → '*' ∉ u →
      (replaceAllL pat (List.replicate pat.length '*') t).take u.length = u →
      t.take u.length = u := by
    intro n
    induction n with
    | zero =>
      intro t u ht hstar hpre
      have ht0 : t = [] := List.eq_nil_of_length_eq_zero (Nat.le_zero.mp ht)
      subst ht0
      simpa [replaceAllL] using hpre
    | succ n ih =>
      intro t u ht hstar hpre
      match t with
      | [] => simpa [replaceAllL] using hpre
      | c :: rest =>
        by_cases hcond : pat ≠ [] ∧ (c :: rest).take pat.length = pat
        · rw [replaceAllL, dif_pos hcond] at hpre
          match u with
          | [] => simp
          | u0 :: u' =>
            obtain ⟨k, hk⟩ : ∃ k, pat.length = k + 1 :=
              ⟨pat.length - 1, by have := List.length_pos.mpr hcond.1; omega⟩
            rw [hk, List.replicate_succ] at hpre
            simp only [List.length_cons, List.cons_append, List.take_succ_cons] at hpre
            have h0 : u0 = '*' := (List.cons.injEq .. ▸ hpre).1.symm
            exact absurd (h0 ▸ List.mem_cons_self u0 u') hstar
        · rw [replaceAllL, dif_neg hcond] at hpre
          match u with
          | [] => simp
          | u0 :: u' =>
            simp only [List.length_cons, List.take_succ_cons] at hpre ⊢
            have hc : c = u0 := (List.cons.injEq .. ▸ hpre).1
            have hrest : (replaceAllL pat (List.replicate pat.length '*') rest).take
                u'.length = u' := (List.cons.injEq .. ▸ hpre).2
            have hstar' : '*' ∉ u' := fun hmem => hstar (List.mem_cons_of_mem u0 hmem)
            simp only [List.length_cons] at ht
            rw [hc, ih rest u' (by omega) hstar' hrest]
  intro t u; exact H t.length t u le_rfl

theorem replaceAllL_no_occurrence (pat : List Char) (hp : pat ≠ []) (hstar : '*' ∉ pat) :
    ∀ t, ¬ occursIn pat (replaceAllL pat (List.replicate pat.length '*') t) := by
  have H : ∀ n t, t.length ≤ n →
      ¬ occursIn pat (replaceAllL pat (List.replicate pat.length '*') t) := by
    intro n
    induction n with
    | zero =>
      intro t ht hocc
      have ht0 : t = [] := List.eq_nil_of_length_eq_zero (Nat.le_zero.mp ht)
      subst ht0
      obtain ⟨pre, post, heq⟩ := hocc
      simp [replaceAllL] at heq
      exact hp heq.2.1
    | succ n ih =>
      intro t ht hocc
      match t with
      | [] =>
        obtain ⟨pre, post, heq⟩ := hocc
        simp [replaceAllL] at heq
        exact hp heq.2.1
      | c :: rest =>
        have hplen : 0 < pat.length := List.length_pos.mpr hp
        by_cases hcond : pat ≠ [] ∧ (c :: rest).take pat.length = pat
        · obtain ⟨pre, post, heq⟩ := hocc
          rw [replaceAllL, dif_pos hcond] at heq
          by_cases hlt : pre.length < pat.length
          · have h1 : (List.replicate pat.length '*' ++
                replaceAllL pat (List.replicate pat.length '*')
                  ((c :: rest).drop pat.length))[pre.length]? = some '*' := by
              rw [List.getElem?_append_left (by simpa using hlt)]
              simp [List.getElem?_replicate, hlt]
            rw [heq, List.append_assoc] at h1
            rw [List.getElem?_append_right (le_refl pre.length)] at h1
            simp only [Nat.sub_self] at h1
            rw [List.getElem?_append_left hplen] at h1
            rw [List.getElem?_eq_getElem hplen] at h1
            have h0 : pat[0] = '*' := Option.some.inj h1
            exact hstar (h0 ▸ List.getElem_mem hplen)
          · push_neg at hlt
            have htk : pre.take pat.length = List.replicate pat.length '*' := by
              have h2 := congrArg (List.take pat.length) heq
              rw [List.take_left' (by simp)] at h2
              rw [List.append_assoc, List.take_append_of_le_length hlt] at h2
              exact h2.symm
            have hdec : pre = List.replicate pat.length '*' ++ pre.drop pat.length := by
              conv_lhs => rw [← List.take_append_drop pat.length pre]
              rw [htk]
            rw [hdec, List.append_assoc, List.append_assoc] at heq
            have hR := List.append_cancel_left heq
            have hocc' : occursIn pat
                (replaceAllL pat (List.replicate pat.length '*')
                  ((c :: rest).drop pat.length)) :=
              ⟨pre.drop pat.length, post, by rw [hR, List.append_assoc]⟩
            have hlen : ((c :: rest).drop pat.length).length ≤ n := by
              simp only [List.length_drop, List.length_cons]
              simp only [List.length_cons] at ht
              omega
            exact ih _ hlen hocc'
        · obtain ⟨pre, post, heq⟩ := hocc
          rw [replaceAllL, dif_neg hcond] at heq
          match pre, heq with
          | [], heq =>
            simp only [List.nil_append] at heq
            have htake : (replaceAllL pat (List.replicate pat.length '*')
                (c :: rest)).take pat.length = pat := by
              rw [replaceAllL, dif_neg hcond, heq, List.take_left]
            have hta := replaceAllL_take_pres pat (c :: rest) pat hstar htake
            exact hcond ⟨hp, hta⟩
          | p :: pre', heq =>
            simp only [List.cons_append] at heq
            have hR : replaceAllL pat (List.replicate pat.length '*') rest =
                pre' ++ pat ++ post := (List.cons.injEq .. ▸ heq).2
            have hocc' : occursIn pat
                (replaceAllL pat (List.replicate pat.length '*') rest) :=
              ⟨pre', post, hR⟩
            simp only [List.length_cons] at ht
            exact ih rest (by omega) hocc'
  intro t; exact H t.length t le_rfl

/-- C7: when response-body logging is enabled, the logged body is
`censorVariables` of the rendered body: for a variable whose resolved
secret (its env-var value when set, else its literal value) is non-empty,
the censored text is exactly the left-to-right replacement of that
secret's occurrences by a run of `*` of identical length — so the censored
text has the same length as the original and, provided the secret itself
contains no `*`, the secret no longer occurs anywhere in it — while the
HTTP response written to the client carries the unredacted rendered body. -/
theorem censor_masks_log_but_not_response :
    (∀ (env : String → Option String) (text : String) (v : Variable),
      resolvedSecret env v ≠ "" → '*' ∉ (resolvedSecret env v).data →
        censorVariables env text [v] =
          String.mk (replaceAllL (resolvedSecret env v).data
            (List.replicate (resolvedSecret env v).data.length '*') text.data)
        ∧ (censorVariables env text [v]).data.length = text.data.length
        ∧ ¬ occursIn (resolvedSecret env v).data (censorVariables env text [v]).data)
    ∧ (∀ (engine : RegexEngine) (fs env : String → Option String) (isJSON : String → Bool)
        (cfg : Config) (r : Request) (e : Endpoint) (p : String × List LogEvent),
      cfg.logging.responseContents = true →
      matchEndpoint engine cfg r = .ok e → e.template ≠ "" →
      renderTemplateResponse fs env e r = .ok p → isJSON p.1 = true →
        serveHTTP engine fs env isJSON cfg r =
          .respond ⟨e.responseCode, true, p.1⟩
            (some (censorVariables env p.1 e.vars))) := by
  constructor
  · intro env text v hs hstar
    have hne : (resolvedSecret env v != "") = true := by simp [bne_iff_ne, hs]
    have heq : censorVariables env text [v] =
        String.mk (replaceAllL (resolvedSecret env v).data
          (List.replicate (resolvedSecret env v).data.length '*') text.data) := by
      simp only [censorVariables, List.foldl_cons, List.foldl_nil, censorOne]
      rw [if_pos hne]
    have hdata : (resolvedSecret env v).data ≠ [] := by
      intro hd
      exact hs (String.ext hd)
    refine ⟨heq, ?_, ?_⟩
    · rw [heq]
      exact replaceAllL_length _ _ (by simp) text.data
    · rw [heq]
      exact replaceAllL_no_occurrence _ hdata hstar text.data
  · intro engine fs env isJSON cfg r e p hlog hmatch htmpl hrender hjson
    have ht : (e.template == "") = false := by
      simp only [beq_eq_false_iff_ne, ne_eq]; exact htmpl
    simp only [serveHTTP, hmatch, ht, Bool.false_eq_true, if_false, hrender, hlog,
      if_true, logRequestAndRespond, hjson, Bool.not_true, Bool.and_false]

/-- Witness for C7: the secret `hunter2` resolved from the environment is
masked in the logged body (same length, no occurrence left), and a concrete
dispatch with response logging on writes the unredacted body to the client
while logging the censored one. -/
theorem censor_masks_log_but_not_response_witness :
    (censorVariables (fun n => if n == "SECRET" then some "hunter2" else none)
        "say hunter2 now" [⟨"tok", "SECRET", "", "fallback"⟩] =
      String.mk (replaceAllL ("hunter2").data
        (List.replicate ("hunter2").data.length '*') ("say hunter2 now").data)
      ∧ (censorVariables (fun n => if n == "SECRET" then some "hunter2" else none)
          "say hunter2 now" [⟨"tok", "SECRET", "", "fallback"⟩]).data.length
        = ("say hunter2 now").data.length
      ∧ ¬ occursIn ("hunter2").data
          (censorVariables (fun n => if n == "SECRET" then some "hunter2" else none)
            "say hunter2 now" [⟨"tok", "SECRET", "", "fallback"⟩]).data)
    ∧ (serveHTTP (fun _ _ => .ok false) (fun _ => some "X")
        (fun n => if n == "SECRET" then some "hunter2" else none) (fun _ => true)
        ⟨"", 0, "", [⟨"/t", "normal", "GET", 200, "t.json", [⟨"tok", "SECRET", "", ""⟩]⟩],
          ⟨false, true⟩⟩
        ⟨"GET", "/t", fun _ => ""⟩
      = .respond ⟨200, true, "X"⟩
          (some (censorVariables (fun n => if n == "SECRET" then some "hunter2" else none)
            "X" [⟨"tok", "SECRET", "", ""⟩]))) :=
  ⟨censor_masks_log_but_not_response.1
      (fun n => if n == "SECRET" then some "hunter2" else none)
      "say hunter2 now" ⟨"tok", "SECRET", "", "fallback"⟩ (by decide) (by decide),
   censor_masks_log_but_not_response.2 (fun _ _ => .ok false) (fun _ => some "X")
      (fun n => if n == "SECRET" then some "hunter2" else none) (fun _ => true)
      ⟨"", 0, "", [⟨"/t", "normal", "GET", 200, "t.json", [⟨"tok", "SECRET", "", ""⟩]⟩],
        ⟨false, true⟩⟩
      ⟨"GET", "/t", fun _ => ""⟩ ⟨"/t", "normal", "GET", 200, "t.json",
        [⟨"tok", "SECRET", "", ""⟩]⟩ ("X", []) rfl rfl (by decide) rfl rfl⟩

end Mockery
